import Mathlib

/-!
Shallow embedding of the missing-category imputation notebook
(`FE06.4_Adding_a_category_to_capture_NA.ipynb`).

A dataframe is modelled column-oriented: an ordered association list from
column names to columns, a column being the ordered list of its cell values.
Cell values are the pandas value domain that the notebook touches: the
missing marker (NaN), category strings, and the integer codes produced by
the label-encoding step.

Column assignment `df[name] = col` follows pandas semantics: if `name` is
already a column it is overwritten in place (keeping its position),
otherwise the new column is appended at the end.
-/

namespace HousePrices

/-- Cell values: the pandas missing marker (NaN), a category string, or an
integer label code. -/
inductive Value where
  | na : Value
  | str : String → Value
  | int : Int → Value
deriving DecidableEq, Repr

/-- Embedding of `pandas.isnull` on a single cell: true exactly on the
missing marker. -/
def Value.isnull : Value → Bool
  | .na => true
  | _ => false

/-- A column: the ordered list of its cell values (one per row). -/
abbrev Col := List Value

/-- A dataframe: ordered association list from column names to columns. -/
abbrev Df := List (String × Col)

/-- Column lookup `df[name]`: the first column with the given name, if any
(pandas raises `KeyError` when the lookup fails, modelled as `none`). -/
def getCol : Df → String → Option Col
  | [], _ => none
  | (m, d) :: rest, n => if m = n then some d else getCol rest n

/-- Column assignment `df[name] = col`: overwrite the first column with this
name in place, or append a new column at the end. -/
def setCol : Df → String → Col → Df
  | [], n, c => [(n, c)]
  | (m, d) :: rest, n, c => if m = n then (n, c) :: rest else (m, d) :: setCol rest n c

/-- One cell of `np.where(df[variable].isnull(), 'Missing', df[variable])`:
the sentinel where the cell is missing, the original value otherwise. -/
def imputeCell (v : Value) : Value :=
  if v.isnull then Value.str ("Missing") else v

/-- The derived `_NA` column built by `np.where` over a whole column. -/
def imputeDerived (c : Col) : Col := c.map imputeCell

/-- Outcome of a call to `impute_na`: normal completion, or the `KeyError`
pandas raises when the requested column is absent (the spec's
`ColumnNotFoundError`). -/
inductive ImpStatus where
  | ok : ImpStatus
  | columnNotFound : ImpStatus
deriving DecidableEq, Repr

/-- Embedding of the notebook's

```
def impute_na(df_train, df_test, variable):
    df_train[variable+'_NA'] = np.where(df_train[variable].isnull(), 'Missing', df_train[variable])
    df_test[variable+'_NA'] = np.where(df_test[variable].isnull(), 'Missing', df_test[variable])
```

with the in-place mutation made explicit: the result carries the status and
the two dataframes as they stand when the call returns or raises. The train
lookup, train assignment, test lookup and test assignment happen in program
order, so a failing test lookup leaves the train assignment already done. -/
def impute_na (train test : Df) (colName : String) : ImpStatus × Df × Df :=
  match getCol train colName with
  | none => (ImpStatus.columnNotFound, train, test)
  | some tc =>
    let train' := setCol train (colName ++ ("_NA")) (imputeDerived tc)
    match getCol test colName with
    | none => (ImpStatus.columnNotFound, train', test)
    | some sc => (ImpStatus.ok, train', setCol test (colName ++ ("_NA")) (imputeDerived sc))

/-- Lookup of a column just assigned finds the assigned values. -/
theorem getCol_setCol_self (df : Df) (n : String) (c : Col) :
    getCol (setCol df n c) n = some c := by
  induction df with
  | nil => simp [setCol, getCol]
  | cons hd tl ih =>
    obtain ⟨m, d⟩ := hd
    by_cases h : m = n
    · subst h; simp [setCol, getCol]
    · simp [setCol, getCol, h, ih]

/-- Assigning one column leaves every other column's lookup unchanged. -/
theorem getCol_setCol_ne (df : Df) (n m : String) (c : Col) (h : m ≠ n) :
    getCol (setCol df n c) m = getCol df m := by
  have h' : ∀ k : String, k = n → ¬k = m := fun k hk hm => h (hm.symm.trans hk)
  induction df with
  | nil => simp [setCol, getCol, h' n rfl]
  | cons hd tl ih =>
    obtain ⟨k, d⟩ := hd
    by_cases hk : k = n
    · subst hk
      simp [setCol, getCol, h' k rfl]
    · by_cases hm : k = m
      · subst hm; simp [setCol, getCol, hk]
      · simp [setCol, getCol, hk, hm, ih]

/-- Assigning a fresh column name appends it at the end. -/
theorem setCol_of_getCol_none (df : Df) (n : String) (c : Col)
    (h : getCol df n = none) : setCol df n c = df ++ [(n, c)] := by
  induction df with
  | nil => simp [setCol]
  | cons hd tl ih =>
    obtain ⟨m, d⟩ := hd
    by_cases hm : m = n
    · subst hm; simp [getCol] at h
    · simp [getCol, hm] at h
      simp [setCol, hm, ih h]

/-- Overwriting an existing column keeps the column count. -/
theorem length_setCol_of_some (df : Df) (n : String) (c d : Col)
    (h : getCol df n = some d) : (setCol df n c).length = df.length := by
  induction df with
  | nil => simp [getCol] at h
  | cons hd tl ih =>
    obtain ⟨m, e⟩ := hd
    by_cases hm : m = n
    · subst hm; simp [setCol]
    · simp [getCol, hm] at h
      simp [setCol, hm, ih h]

/-- Re-assigning a column the values it already holds is a no-op. -/
theorem setCol_getCol_self (df : Df) (n : String) (c : Col)
    (h : getCol df n = some c) : setCol df n c = df := by
  induction df with
  | nil => simp [getCol] at h
  | cons hd tl ih =>
    obtain ⟨m, d⟩ := hd
    by_cases hm : m = n
    · subst hm
      simp [getCol] at h
      simp [setCol, h]
    · simp [getCol, hm] at h
      simp [setCol, hm, ih h]

/-- Appending the `_NA` suffix always changes a column name. -/
theorem ne_append_NA (n : String) : n ≠ n ++ ("_NA") := by
  intro h
  have hlen := congrArg String.length h
  rw [String.length_append] at hlen
  have h3 : String.length ("_NA") = 3 := rfl
  omega

/-- Embedding of `pandas.Series.unique`: the distinct values of a column in
first-seen order (each value kept at its first occurrence, later duplicates
dropped). -/
def uniqueVals : Col → Col
  | [] => []
  | v :: rest => v :: (uniqueVals rest).filter (fun w => w != v)

/-- Position of the first occurrence of a value in a list, if present. -/
def lookupIdx : Col → Value → Option Nat
  | [], _ => none
  | w :: rest, v => if w = v then some 0 else (lookupIdx rest v).map (fun i => i + 1)

/-- Embedding of `labels_dict = {k:i for i, k in enumerate(X_train[col].unique(), 0)}`:
the dictionary maps each distinct value of the training column, in first-seen
order, to its index starting at 0; any other key is absent. -/
def labels_dict (trainCol : Col) (v : Value) : Option Nat :=
  lookupIdx (uniqueVals trainCol) v

/-- One cell of `Series.map(labels_dict)`: the integer code when the key is
in the dictionary, the missing marker (NaN) when it is not. -/
def mapCell (trainCol : Col) (v : Value) : Value :=
  match labels_dict trainCol v with
  | some i => Value.int i
  | none => Value.na

/-- A whole column mapped through the training-derived dictionary. -/
def mapColumn (trainCol : Col) (c : Col) : Col := c.map (mapCell trainCol)

/-- Embedding of one iteration of the notebook's encoding loop

```
labels_dict = {k:i for i, k in enumerate(X_train[col].unique(), 0)}
X_train.loc[:, col] = X_train.loc[:, col].map(labels_dict)
X_test.loc[:, col] = X_test.loc[:, col].map(labels_dict)
```

the dictionary is built from the training column only and applied in place
to the same column of both dataframes. -/
def encodeCol (train test : Df) (colName : String) : Df × Df :=
  match getCol train colName with
  | none => (train, test)
  | some tc =>
    let train' := setCol train colName (mapColumn tc tc)
    match getCol test colName with
    | none => (train', test)
    | some sc => (train', setCol test colName (mapColumn tc sc))

/-- A value occurs among a column's distinct values exactly when it occurs in
the column. -/
theorem mem_uniqueVals (c : Col) (v : Value) : v ∈ uniqueVals c ↔ v ∈ c := by
  induction c with
  | nil => simp [uniqueVals]
  | cons w rest ih =>
    simp only [uniqueVals, List.mem_cons, List.mem_filter, bne_iff_ne, ih]
    constructor
    · rintro (h | ⟨h, _⟩)
      · exact Or.inl h
      · exact Or.inr h
    · rintro (h | h)
      · exact Or.inl h
      · by_cases hv : v = w
        · exact Or.inl hv
        · exact Or.inr ⟨h, hv⟩

/-- The distinct values of a column contain no duplicates. -/
theorem nodup_uniqueVals (c : Col) : (uniqueVals c).Nodup := by
  induction c with
  | nil => simp [uniqueVals]
  | cons w rest ih =>
    simp only [uniqueVals]
    refine List.nodup_cons.mpr ⟨?_, ih.filter _⟩
    intro hmem
    simp [List.mem_filter] at hmem

/-- A value absent from a list has no first-occurrence index. -/
theorem lookupIdx_eq_none (c : Col) (v : Value) (h : v ∉ c) :
    lookupIdx c v = none := by
  induction c with
  | nil => rfl
  | cons w rest ih =>
    simp only [List.mem_cons, not_or] at h
    have hwv : ¬w = v := fun hh => h.1 hh.symm
    simp [lookupIdx, hwv, ih h.2]

/-- On a duplicate-free list, the first-occurrence index of the i-th element
is i itself. -/
theorem lookupIdx_get_of_nodup (c : Col) (hc : c.Nodup) :
    ∀ i (h : i < c.length), lookupIdx c (c.get ⟨i, h⟩) = some i := by
  induction c with
  | nil => intro i h; simp at h
  | cons w rest ih =>
    intro i h
    match i with
    | 0 => simp [lookupIdx]
    | Nat.succ j =>
      have hj : j < rest.length := Nat.lt_of_succ_lt_succ h
      have hget : (w :: rest).get ⟨j + 1, h⟩ = rest.get ⟨j, hj⟩ := rfl
      have hw : w ≠ rest.get ⟨j, hj⟩ := by
        intro hh
        exact (List.nodup_cons.mp hc).1 (hh ▸ rest.get_mem j hj)
      rw [hget]
      have hrec := ih (List.nodup_cons.mp hc).2 j hj
      simp only [List.get_eq_getElem] at hrec hw ⊢
      simp [lookupIdx, hw, hrec]

/-- Errors of the Evaluator named by the spec. -/
inductive EvalError where
  | emptyInput : EvalError
deriving DecidableEq, Repr

/-- Mean squared error of a prediction vector against an actual vector:
the average of the squared residuals, undefined (`none`) on zero rows. -/
def mse (pred actual : List ℚ) : Option ℚ :=
  if pred.length = 0 then none
  else some (((pred.zip actual).map (fun p => (p.1 - p.2) ^ 2)).sum / (pred.length : ℚ))

/-- Modelled from the spec: the Evaluator's model-fit and scoring steps. The
ordinary-least-squares fit itself is delegated in the notebook to an external
regression collaborator (scikit-learn, not part of the repository source), so
it is taken here as a parameter `fit` producing a predictor from the encoded
training rows and training targets. Per the spec, a zero-row partition makes
the mean squared error undefined and the call fails with `EmptyInputError`. -/
def evaluate (fit : List (List Value) → List ℚ → List Value → ℚ)
    (trainRows testRows : List (List Value)) (trainY testY : List ℚ) :
    Except EvalError (ℚ × ℚ) :=
  let predict := fit trainRows trainY
  match mse (trainRows.map predict) trainY, mse (testRows.map predict) testY with
  | some a, some b => Except.ok (a, b)
  | _, _ => Except.error EvalError.emptyInput

/-- The `np.where` cell transform written with the missing marker spelt out. -/
theorem imputeCell_eq (v : Value) :
    imputeCell v = if v = Value.na then Value.str ("Missing") else v := by
  cases v <;> simp [imputeCell, Value.isnull]

/-- Every value of a derived `_NA` column is non-missing and is either an
original value of the column or the sentinel. -/
theorem mem_imputeDerived (c : Col) (v : Value) (h : v ∈ imputeDerived c) :
    v ≠ Value.na ∧ (v ∈ c ∨ v = Value.str ("Missing")) := by
  obtain ⟨w, hw, rfl⟩ := List.mem_map.mp h
  cases w with
  | na => exact ⟨by simp [imputeCell, Value.isnull], Or.inr (by simp [imputeCell, Value.isnull])⟩
  | str s => exact ⟨by simp [imputeCell, Value.isnull], Or.inl (by simpa [imputeCell, Value.isnull] using hw)⟩
  | int n => exact ⟨by simp [imputeCell, Value.isnull], Or.inl (by simpa [imputeCell, Value.isnull] using hw)⟩

/-- Sample training dataframe: one column `q` with a missing first row. -/
def sampleTrain : Df := [(("q"), [Value.na, Value.str ("Gd")])]

/-- Sample test dataframe: one column `q` with no missing row. -/
def sampleTest : Df := [(("q"), [Value.str ("TA")])]

/-- Claim C1. For every row collection and every processed column, the derived
column named `colName ++ "_NA"` holds, row by row, the sentinel `"Missing"`
where the original column is the missing marker and exactly the original value
otherwise, in both the training and the test output of `impute_na`. -/
theorem impute_na_sentinel_and_preservation (train test : Df) (colName : String)
    (tc sc : Col) (htr : getCol train colName = some tc)
    (hte : getCol test colName = some sc) :
    getCol (impute_na train test colName).2.1 (colName ++ ("_NA")) = some (imputeDerived tc) ∧
    getCol (impute_na train test colName).2.2 (colName ++ ("_NA")) = some (imputeDerived sc) ∧
    (∀ i v, tc.get? i = some v →
      (imputeDerived tc).get? i = some (if v = Value.na then Value.str ("Missing") else v)) ∧
    (∀ i v, sc.get? i = some v →
      (imputeDerived sc).get? i = some (if v = Value.na then Value.str ("Missing") else v)) := by
  refine ⟨?_, ?_, ?_, ?_⟩
  · simp [impute_na, htr, hte, getCol_setCol_self]
  · simp [impute_na, htr, hte, getCol_setCol_self]
  · intro i v hv
    rw [imputeDerived, List.get?_map, hv]
    simp [imputeCell_eq]
  · intro i v hv
    rw [imputeDerived, List.get?_map, hv]
    simp [imputeCell_eq]

/-- Witness for C1 at a concrete input. -/
theorem impute_na_sentinel_and_preservation_witness :
    (getCol sampleTrain ("q") = some [Value.na, Value.str ("Gd")] ∧
     getCol sampleTest ("q") = some [Value.str ("TA")]) ∧
    (getCol (impute_na sampleTrain sampleTest ("q")).2.1 (("q") ++ ("_NA"))
        = some (imputeDerived [Value.na, Value.str ("Gd")]) ∧
     getCol (impute_na sampleTrain sampleTest ("q")).2.2 (("q") ++ ("_NA"))
        = some (imputeDerived [Value.str ("TA")]) ∧
     (∀ i v, ([Value.na, Value.str ("Gd")] : Col).get? i = some v →
       (imputeDerived [Value.na, Value.str ("Gd")]).get? i
         = some (if v = Value.na then Value.str ("Missing") else v)) ∧
     (∀ i v, ([Value.str ("TA")] : Col).get? i = some v →
       (imputeDerived [Value.str ("TA")]).get? i
         = some (if v = Value.na then Value.str ("Missing") else v))) :=
  ⟨⟨by decide, by decide⟩,
    impute_na_sentinel_and_preservation sampleTrain sampleTest ("q")
      [Value.na, Value.str ("Gd")] [Value.str ("TA")] (by decide) (by decide)⟩

/-- Claim C3. After the imputer runs, the derived columns of both outputs
contain no missing marker: every derived value is an original value of the
processed column or the sentinel `"Missing"`. -/
theorem impute_na_completeness (train test : Df) (colName : String)
    (tc sc : Col) (htr : getCol train colName = some tc)
    (hte : getCol test colName = some sc) :
    getCol (impute_na train test colName).2.1 (colName ++ ("_NA")) = some (imputeDerived tc) ∧
    getCol (impute_na train test colName).2.2 (colName ++ ("_NA")) = some (imputeDerived sc) ∧
    (∀ v ∈ imputeDerived tc, v ≠ Value.na ∧ (v ∈ tc ∨ v = Value.str ("Missing"))) ∧
    (∀ v ∈ imputeDerived sc, v ≠ Value.na ∧ (v ∈ sc ∨ v = Value.str ("Missing"))) := by
  refine ⟨?_, ?_, ?_, ?_⟩
  · simp [impute_na, htr, hte, getCol_setCol_self]
  · simp [impute_na, htr, hte, getCol_setCol_self]
  · intro v hv; exact mem_imputeDerived tc v hv
  · intro v hv; exact mem_imputeDerived sc v hv

/-- Witness for C3 at a concrete input. -/
theorem impute_na_completeness_witness :
    (getCol sampleTrain ("q") = some [Value.na, Value.str ("Gd")] ∧
     getCol sampleTest ("q") = some [Value.str ("TA")]) ∧
    (getCol (impute_na sampleTrain sampleTest ("q")).2.1 (("q") ++ ("_NA"))
        = some (imputeDerived [Value.na, Value.str ("Gd")]) ∧
     getCol (impute_na sampleTrain sampleTest ("q")).2.2 (("q") ++ ("_NA"))
        = some (imputeDerived [Value.str ("TA")]) ∧
     (∀ v ∈ imputeDerived [Value.na, Value.str ("Gd")],
        v ≠ Value.na ∧ (v ∈ ([Value.na, Value.str ("Gd")] : Col) ∨ v = Value.str ("Missing"))) ∧
     (∀ v ∈ imputeDerived [Value.str ("TA")],
        v ≠ Value.na ∧ (v ∈ ([Value.str ("TA")] : Col) ∨ v = Value.str ("Missing")))) :=
  ⟨⟨by decide, by decide⟩,
    impute_na_completeness sampleTrain sampleTest ("q")
      [Value.na, Value.str ("Gd")] [Value.str ("TA")] (by decide) (by decide)⟩

/-- Claim C6. When the processed column is absent from the schema of either
input collection, `impute_na` raises the column-not-found error. -/
theorem impute_na_missing_column_fails (train test : Df) (colName : String)
    (h : getCol train colName = none ∨ getCol test colName = none) :
    (impute_na train test colName).1 = ImpStatus.columnNotFound := by
  cases htr : getCol train colName with
  | none => simp [impute_na, htr]
  | some tc =>
    cases h with
    | inl h1 => rw [htr] at h1; exact absurd h1 (by simp)
    | inr h2 => simp [impute_na, htr, h2]

/-- Witness for C6 at a concrete input: the column is absent from the test
dataframe. -/
theorem impute_na_missing_column_fails_witness :
    (getCol sampleTrain ("r") = none ∨ getCol ([] : Df) ("r") = none) ∧
    (impute_na sampleTrain ([] : Df) ("r")).1 = ImpStatus.columnNotFound :=
  ⟨Or.inl (by decide),
    impute_na_missing_column_fails sampleTrain ([] : Df) ("r") (Or.inl (by decide))⟩

/-- Counterexample to C4 as stated: when an input dataframe already contains
a column named `q_NA`, `impute_na` for column `q` overwrites that column in
place, so a pre-existing column changes value and the column count does not
grow — no new column is added. -/
theorem impute_na_frame_effect_cex :
    ((impute_na [(("q"), [Value.na]), (("q_NA"), [Value.str ("X")])]
        [(("q"), [Value.na]), (("q_NA"), [Value.str ("X")])] ("q")).2.1).length
      = ([(("q"), [Value.na]), (("q_NA"), [Value.str ("X")])] : Df).length ∧
    getCol (impute_na [(("q"), [Value.na]), (("q_NA"), [Value.str ("X")])]
        [(("q"), [Value.na]), (("q_NA"), [Value.str ("X")])] ("q")).2.1 ("q_NA")
      ≠ getCol ([(("q"), [Value.na]), (("q_NA"), [Value.str ("X")])] : Df) ("q_NA") := by
  decide

/-- Claim C4 (amended): provided the derived name `colName ++ "_NA"` is not
already a column of either input, the outputs keep every pre-existing column
unchanged value-for-value (hence row count and row order), gain exactly one
new column each, and that new column has one value per row of the original
column. -/
theorem impute_na_frame_effect (train test : Df) (colName : String)
    (tc sc : Col) (htr : getCol train colName = some tc)
    (hte : getCol test colName = some sc)
    (hf1 : getCol train (colName ++ ("_NA")) = none)
    (hf2 : getCol test (colName ++ ("_NA")) = none) :
    (impute_na train test colName).1 = ImpStatus.ok ∧
    ((impute_na train test colName).2.1).length = train.length + 1 ∧
    ((impute_na train test colName).2.2).length = test.length + 1 ∧
    (∀ n, n ≠ colName ++ ("_NA") →
      getCol (impute_na train test colName).2.1 n = getCol train n ∧
      getCol (impute_na train test colName).2.2 n = getCol test n) ∧
    getCol (impute_na train test colName).2.1 (colName ++ ("_NA")) = some (imputeDerived tc) ∧
    getCol (impute_na train test colName).2.2 (colName ++ ("_NA")) = some (imputeDerived sc) ∧
    (imputeDerived tc).length = tc.length ∧ (imputeDerived sc).length = sc.length := by
  have e : impute_na train test colName
      = (ImpStatus.ok, setCol train (colName ++ ("_NA")) (imputeDerived tc),
          setCol test (colName ++ ("_NA")) (imputeDerived sc)) := by
    simp [impute_na, htr, hte]
  rw [e]
  refine ⟨rfl, ?_, ?_, ?_, ?_, ?_, ?_, ?_⟩
  · rw [setCol_of_getCol_none _ _ _ hf1]; simp
  · rw [setCol_of_getCol_none _ _ _ hf2]; simp
  · intro n hn
    exact ⟨getCol_setCol_ne _ _ _ _ hn, getCol_setCol_ne _ _ _ _ hn⟩
  · exact getCol_setCol_self _ _ _
  · exact getCol_setCol_self _ _ _
  · simp [imputeDerived]
  · simp [imputeDerived]

/-- Witness for the amended C4 at a concrete input. -/
theorem impute_na_frame_effect_witness :
    (getCol sampleTrain ("q") = some [Value.na, Value.str ("Gd")] ∧
     getCol sampleTest ("q") = some [Value.str ("TA")] ∧
     getCol sampleTrain (("q") ++ ("_NA")) = none ∧
     getCol sampleTest (("q") ++ ("_NA")) = none) ∧
    ((impute_na sampleTrain sampleTest ("q")).1 = ImpStatus.ok ∧
     ((impute_na sampleTrain sampleTest ("q")).2.1).length = sampleTrain.length + 1 ∧
     ((impute_na sampleTrain sampleTest ("q")).2.2).length = sampleTest.length + 1 ∧
     (∀ n, n ≠ ("q") ++ ("_NA") →
       getCol (impute_na sampleTrain sampleTest ("q")).2.1 n = getCol sampleTrain n ∧
       getCol (impute_na sampleTrain sampleTest ("q")).2.2 n = getCol sampleTest n) ∧
     getCol (impute_na sampleTrain sampleTest ("q")).2.1 (("q") ++ ("_NA"))
        = some (imputeDerived [Value.na, Value.str ("Gd")]) ∧
     getCol (impute_na sampleTrain sampleTest ("q")).2.2 (("q") ++ ("_NA"))
        = some (imputeDerived [Value.str ("TA")]) ∧
     (imputeDerived [Value.na, Value.str ("Gd")]).length
        = ([Value.na, Value.str ("Gd")] : Col).length ∧
     (imputeDerived [Value.str ("TA")]).length = ([Value.str ("TA")] : Col).length) :=
  ⟨⟨by decide, by decide, by decide, by decide⟩,
    impute_na_frame_effect sampleTrain sampleTest ("q")
      [Value.na, Value.str ("Gd")] [Value.str ("TA")]
      (by decide) (by decide) (by decide) (by decide)⟩

/-- Claim C8. The imputer is deterministic (in this embedding it is a pure
function of its inputs) and idempotent: re-running `impute_na` on the
dataframes produced by a first run returns the same status and the same
dataframes, derived columns included, whatever the first run's outcome. -/
theorem impute_na_idempotent (train test : Df) (colName : String) :
    impute_na (impute_na train test colName).2.1 (impute_na train test colName).2.2 colName
      = impute_na train test colName := by
  have hne : colName ≠ colName ++ ("_NA") := ne_append_NA colName
  cases htr : getCol train colName with
  | none => simp [impute_na, htr]
  | some tc =>
    cases hte : getCol test colName with
    | none =>
      have e : impute_na train test colName
          = (ImpStatus.columnNotFound,
              setCol train (colName ++ ("_NA")) (imputeDerived tc), test) := by
        simp [impute_na, htr, hte]
      rw [e]
      have h1 : getCol (setCol train (colName ++ ("_NA")) (imputeDerived tc)) colName
          = some tc := by
        rw [getCol_setCol_ne _ _ _ _ hne, htr]
      simp only [impute_na, h1, hte]
      rw [setCol_getCol_self _ _ _ (getCol_setCol_self _ _ _)]
    | some sc =>
      have e : impute_na train test colName
          = (ImpStatus.ok, setCol train (colName ++ ("_NA")) (imputeDerived tc),
              setCol test (colName ++ ("_NA")) (imputeDerived sc)) := by
        simp [impute_na, htr, hte]
      rw [e]
      have h1 : getCol (setCol train (colName ++ ("_NA")) (imputeDerived tc)) colName
          = some tc := by
        rw [getCol_setCol_ne _ _ _ _ hne, htr]
      have h2 : getCol (setCol test (colName ++ ("_NA")) (imputeDerived sc)) colName
          = some sc := by
        rw [getCol_setCol_ne _ _ _ _ hne, hte]
      simp only [impute_na, h1, h2]
      rw [setCol_getCol_self _ _ _ (getCol_setCol_self _ _ _),
        setCol_getCol_self _ _ _ (getCol_setCol_self _ _ _)]

/-- Claim C10. When the processed column is present in the training dataframe
but absent from the test dataframe, `impute_na` raises the column-not-found
error only after assigning the derived column to the training dataframe: the
training collection comes back modified despite the error, the test
collection untouched. -/
theorem impute_na_partial_mutation (train test : Df) (colName : String) (tc : Col)
    (htr : getCol train colName = some tc) (hte : getCol test colName = none)
    (hfresh : getCol train (colName ++ ("_NA")) = none) :
    (impute_na train test colName).1 = ImpStatus.columnNotFound ∧
    (impute_na train test colName).2.1 = setCol train (colName ++ ("_NA")) (imputeDerived tc) ∧
    getCol (impute_na train test colName).2.1 (colName ++ ("_NA")) = some (imputeDerived tc) ∧
    (impute_na train test colName).2.1 ≠ train ∧
    (impute_na train test colName).2.2 = test := by
  have e : impute_na train test colName
      = (ImpStatus.columnNotFound,
          setCol train (colName ++ ("_NA")) (imputeDerived tc), test) := by
    simp [impute_na, htr, hte]
  rw [e]
  have hlen : (setCol train (colName ++ ("_NA")) (imputeDerived tc)).length
      = train.length + 1 := by
    rw [setCol_of_getCol_none _ _ _ hfresh]; simp
  refine ⟨rfl, rfl, getCol_setCol_self _ _ _, ?_, rfl⟩
  intro hEq
  have := congrArg List.length hEq
  rw [hlen] at this
  omega

/-- Witness for C10 at a concrete input: the test dataframe lacks column `q`. -/
theorem impute_na_partial_mutation_witness :
    (getCol sampleTrain ("q") = some [Value.na, Value.str ("Gd")] ∧
     getCol ([] : Df) ("q") = none ∧
     getCol sampleTrain (("q") ++ ("_NA")) = none) ∧
    ((impute_na sampleTrain ([] : Df) ("q")).1 = ImpStatus.columnNotFound ∧
     (impute_na sampleTrain ([] : Df) ("q")).2.1
        = setCol sampleTrain (("q") ++ ("_NA")) (imputeDerived [Value.na, Value.str ("Gd")]) ∧
     getCol (impute_na sampleTrain ([] : Df) ("q")).2.1 (("q") ++ ("_NA"))
        = some (imputeDerived [Value.na, Value.str ("Gd")]) ∧
     (impute_na sampleTrain ([] : Df) ("q")).2.1 ≠ sampleTrain ∧
     (impute_na sampleTrain ([] : Df) ("q")).2.2 = ([] : Df)) :=
  ⟨⟨by decide, by decide, by decide⟩,
    impute_na_partial_mutation sampleTrain ([] : Df) ("q")
      [Value.na, Value.str ("Gd")] (by decide) (by decide) (by decide)⟩

/-- A cell mapped through the label dictionary is never a string. -/
theorem mapCell_ne_str (tc : Col) (v : Value) (s : String) :
    mapCell tc v ≠ Value.str s := by
  cases h : labels_dict tc v <;> simp [mapCell, h]

/-- Claim C2. The encoding step builds the label dictionary from the distinct
values observed in the training column only, assigning consecutive integers
starting at 0 in first-seen order, and applies that same dictionary to the
matching column of both dataframes; at the spec's concrete scenario, training
rows `[Gd, NaN, TA]` impute to `[Gd, Missing, TA]`, the dictionary is
`{Gd ↦ 0, Missing ↦ 1, TA ↦ 2}`, and the encoded training column is
`[0, 1, 2]`. -/
theorem encodeCol_training_mapping (train test : Df) (colName : String)
    (tc sc : Col) (htr : getCol train colName = some tc)
    (hte : getCol test colName = some sc) :
    encodeCol train test colName
      = (setCol train colName (mapColumn tc tc), setCol test colName (mapColumn tc sc)) ∧
    (∀ i (h : i < (uniqueVals tc).length),
      labels_dict tc ((uniqueVals tc).get ⟨i, h⟩) = some i) ∧
    imputeDerived [Value.str ("Gd"), Value.na, Value.str ("TA")]
      = [Value.str ("Gd"), Value.str ("Missing"), Value.str ("TA")] ∧
    labels_dict [Value.str ("Gd"), Value.str ("Missing"), Value.str ("TA")]
      (Value.str ("Gd")) = some 0 ∧
    labels_dict [Value.str ("Gd"), Value.str ("Missing"), Value.str ("TA")]
      (Value.str ("Missing")) = some 1 ∧
    labels_dict [Value.str ("Gd"), Value.str ("Missing"), Value.str ("TA")]
      (Value.str ("TA")) = some 2 ∧
    mapColumn [Value.str ("Gd"), Value.str ("Missing"), Value.str ("TA")]
      [Value.str ("Gd"), Value.str ("Missing"), Value.str ("TA")]
      = [Value.int 0, Value.int 1, Value.int 2] := by
  refine ⟨by simp [encodeCol, htr, hte], ?_, by decide, by decide, by decide, by decide,
    by decide⟩
  intro i h
  exact lookupIdx_get_of_nodup (uniqueVals tc) (nodup_uniqueVals tc) i h

/-- Witness for C2 at a concrete input. -/
theorem encodeCol_training_mapping_witness :
    (getCol [(("q_NA"), [Value.str ("Gd"), Value.str ("Missing"), Value.str ("TA")])] ("q_NA")
        = some [Value.str ("Gd"), Value.str ("Missing"), Value.str ("TA")] ∧
     getCol [(("q_NA"), [Value.str ("TA")])] ("q_NA") = some [Value.str ("TA")]) ∧
    (encodeCol [(("q_NA"), [Value.str ("Gd"), Value.str ("Missing"), Value.str ("TA")])]
        [(("q_NA"), [Value.str ("TA")])] ("q_NA")
      = (setCol [(("q_NA"), [Value.str ("Gd"), Value.str ("Missing"), Value.str ("TA")])]
          ("q_NA")
          (mapColumn [Value.str ("Gd"), Value.str ("Missing"), Value.str ("TA")]
            [Value.str ("Gd"), Value.str ("Missing"), Value.str ("TA")]),
        setCol [(("q_NA"), [Value.str ("TA")])] ("q_NA")
          (mapColumn [Value.str ("Gd"), Value.str ("Missing"), Value.str ("TA")]
            [Value.str ("TA")])) ∧
     (∀ i (h : i < (uniqueVals [Value.str ("Gd"), Value.str ("Missing"), Value.str ("TA")]).length),
       labels_dict [Value.str ("Gd"), Value.str ("Missing"), Value.str ("TA")]
         ((uniqueVals [Value.str ("Gd"), Value.str ("Missing"), Value.str ("TA")]).get ⟨i, h⟩)
         = some i) ∧
     imputeDerived [Value.str ("Gd"), Value.na, Value.str ("TA")]
       = [Value.str ("Gd"), Value.str ("Missing"), Value.str ("TA")] ∧
     labels_dict [Value.str ("Gd"), Value.str ("Missing"), Value.str ("TA")]
       (Value.str ("Gd")) = some 0 ∧
     labels_dict [Value.str ("Gd"), Value.str ("Missing"), Value.str ("TA")]
       (Value.str ("Missing")) = some 1 ∧
     labels_dict [Value.str ("Gd"), Value.str ("Missing"), Value.str ("TA")]
       (Value.str ("TA")) = some 2 ∧
     mapColumn [Value.str ("Gd"), Value.str ("Missing"), Value.str ("TA")]
       [Value.str ("Gd"), Value.str ("Missing"), Value.str ("TA")]
       = [Value.int 0, Value.int 1, Value.int 2]) :=
  ⟨⟨by decide, by decide⟩,
    encodeCol_training_mapping
      [(("q_NA"), [Value.str ("Gd"), Value.str ("Missing"), Value.str ("TA")])]
      [(("q_NA"), [Value.str ("TA")])] ("q_NA")
      [Value.str ("Gd"), Value.str ("Missing"), Value.str ("TA")] [Value.str ("TA")]
      (by decide) (by decide)⟩

/-- Counterexample to C5 as stated: at a concrete input whose test column
holds a value never seen in training, the encoding step completes normally —
it returns a dataframe pair instead of failing, and the unseen cell is
silently mapped to the missing marker (pandas `Series.map` yields NaN for an
absent key). -/
theorem encodeCol_unseen_cex :
    encodeCol [(("q_NA"), [Value.str ("Gd")])] [(("q_NA"), [Value.str ("TA")])] ("q_NA")
      = ([(("q_NA"), [Value.int 0])], [(("q_NA"), [Value.na])]) := by
  decide

/-- Claim C5 (amended): a test value unseen in the training column is not
given any integer code by the encoding — it is silently mapped to the
missing marker (NaN), with no error raised. -/
theorem mapCell_unseen_is_na (tc : Col) (v : Value) (h : v ∉ tc) :
    mapCell tc v = Value.na ∧ ∀ i : Int, mapCell tc v ≠ Value.int i := by
  have h1 : v ∉ uniqueVals tc := fun hh => h ((mem_uniqueVals tc v).mp hh)
  have h2 : labels_dict tc v = none := lookupIdx_eq_none _ _ h1
  exact ⟨by simp [mapCell, h2], fun i => by simp [mapCell, h2]⟩

/-- Witness for the amended C5 at a concrete input. -/
theorem mapCell_unseen_is_na_witness :
    Value.str ("TA") ∉ ([Value.str ("Gd")] : Col) ∧
    (mapCell [Value.str ("Gd")] (Value.str ("TA")) = Value.na ∧
     ∀ i : Int, mapCell [Value.str ("Gd")] (Value.str ("TA")) ≠ Value.int i) :=
  ⟨by decide, mapCell_unseen_is_na [Value.str ("Gd")] (Value.str ("TA")) (by decide)⟩

/-- Claim C9. The encoding loop overwrites the feature column in place in
both dataframes — after it runs, that column's values are integer codes or
the missing marker, never strings — while every other column (the raw
columns and the target) and the column counts are left unchanged. -/
theorem encodeCol_overwrites_in_place (train test : Df) (colName : String)
    (tc sc : Col) (htr : getCol train colName = some tc)
    (hte : getCol test colName = some sc) :
    getCol (encodeCol train test colName).1 colName = some (mapColumn tc tc) ∧
    getCol (encodeCol train test colName).2 colName = some (mapColumn tc sc) ∧
    ((encodeCol train test colName).1).length = train.length ∧
    ((encodeCol train test colName).2).length = test.length ∧
    (∀ v ∈ mapColumn tc tc, ∀ s, v ≠ Value.str s) ∧
    (∀ v ∈ mapColumn tc sc, ∀ s, v ≠ Value.str s) ∧
    (∀ n, n ≠ colName →
      getCol (encodeCol train test colName).1 n = getCol train n ∧
      getCol (encodeCol train test colName).2 n = getCol test n) := by
  have e : encodeCol train test colName
      = (setCol train colName (mapColumn tc tc), setCol test colName (mapColumn tc sc)) := by
    simp [encodeCol, htr, hte]
  rw [e]
  refine ⟨getCol_setCol_self _ _ _, getCol_setCol_self _ _ _,
    length_setCol_of_some _ _ _ _ htr, length_setCol_of_some _ _ _ _ hte, ?_, ?_, ?_⟩
  · intro v hv s
    obtain ⟨w, _, rfl⟩ := List.mem_map.mp hv
    exact mapCell_ne_str tc w s
  · intro v hv s
    obtain ⟨w, _, rfl⟩ := List.mem_map.mp hv
    exact mapCell_ne_str tc w s
  · intro n hn
    exact ⟨getCol_setCol_ne _ _ _ _ hn, getCol_setCol_ne _ _ _ _ hn⟩

/-- Witness for C9 at a concrete input. -/
theorem encodeCol_overwrites_in_place_witness :
    (getCol [(("q_NA"), [Value.str ("Gd"), Value.str ("TA")])] ("q_NA")
        = some [Value.str ("Gd"), Value.str ("TA")] ∧
     getCol [(("q_NA"), [Value.str ("TA")])] ("q_NA") = some [Value.str ("TA")]) ∧
    (getCol (encodeCol [(("q_NA"), [Value.str ("Gd"), Value.str ("TA")])]
        [(("q_NA"), [Value.str ("TA")])] ("q_NA")).1 ("q_NA")
      = some (mapColumn [Value.str ("Gd"), Value.str ("TA")]
          [Value.str ("Gd"), Value.str ("TA")]) ∧
     getCol (encodeCol [(("q_NA"), [Value.str ("Gd"), Value.str ("TA")])]
        [(("q_NA"), [Value.str ("TA")])] ("q_NA")).2 ("q_NA")
      = some (mapColumn [Value.str ("Gd"), Value.str ("TA")] [Value.str ("TA")]) ∧
     ((encodeCol [(("q_NA"), [Value.str ("Gd"), Value.str ("TA")])]
        [(("q_NA"), [Value.str ("TA")])] ("q_NA")).1).length
      = ([(("q_NA"), [Value.str ("Gd"), Value.str ("TA")])] : Df).length ∧
     ((encodeCol [(("q_NA"), [Value.str ("Gd"), Value.str ("TA")])]
        [(("q_NA"), [Value.str ("TA")])] ("q_NA")).2).length
      = ([(("q_NA"), [Value.str ("TA")])] : Df).length ∧
     (∀ v ∈ mapColumn [Value.str ("Gd"), Value.str ("TA")]
        [Value.str ("Gd"), Value.str ("TA")], ∀ s, v ≠ Value.str s) ∧
     (∀ v ∈ mapColumn [Value.str ("Gd"), Value.str ("TA")] [Value.str ("TA")],
        ∀ s, v ≠ Value.str s) ∧
     (∀ n, n ≠ ("q_NA") →
       getCol (encodeCol [(("q_NA"), [Value.str ("Gd"), Value.str ("TA")])]
          [(("q_NA"), [Value.str ("TA")])] ("q_NA")).1 n
         = getCol [(("q_NA"), [Value.str ("Gd"), Value.str ("TA")])] n ∧
       getCol (encodeCol [(("q_NA"), [Value.str ("Gd"), Value.str ("TA")])]
          [(("q_NA"), [Value.str ("TA")])] ("q_NA")).2 n
         = getCol [(("q_NA"), [Value.str ("TA")])] n)) :=
  ⟨⟨by decide, by decide⟩,
    encodeCol_overwrites_in_place
      [(("q_NA"), [Value.str ("Gd"), Value.str ("TA")])]
      [(("q_NA"), [Value.str ("TA")])] ("q_NA")
      [Value.str ("Gd"), Value.str ("TA")] [Value.str ("TA")]
      (by decide) (by decide)⟩

/-- Claim C7 (spec-modelled). When either partition given to the Evaluator
has zero rows, its mean squared error is undefined, and the call fails with
`EmptyInputError` instead of producing a pair of MSE values. -/
theorem evaluate_empty_input_fails
    (fit : List (List Value) → List ℚ → List Value → ℚ)
    (trainRows testRows : List (List Value)) (trainY testY : List ℚ)
    (h : trainRows = [] ∨ testRows = []) :
    evaluate fit trainRows testRows trainY testY = Except.error EvalError.emptyInput := by
  cases h with
  | inl h1 =>
    subst h1
    simp [evaluate, mse]
  | inr h2 =>
    subst h2
    have hnone : mse (([] : List (List Value)).map (fit trainRows trainY)) testY = none := by
      simp [mse]
    simp only [evaluate, hnone]
    cases mse (trainRows.map (fit trainRows trainY)) trainY <;> rfl

/-- Witness for C7 at a concrete input: an empty training partition. -/
theorem evaluate_empty_input_fails_witness :
    (([] : List (List Value)) = [] ∨ ([[Value.int 0]] : List (List Value)) = []) ∧
    evaluate (fun _ _ _ => (0 : ℚ)) ([] : List (List Value)) [[Value.int 0]] [] [(1 : ℚ)]
      = Except.error EvalError.emptyInput :=
  ⟨Or.inl rfl,
    evaluate_empty_input_fails (fun _ _ _ => (0 : ℚ)) ([] : List (List Value))
      [[Value.int 0]] [] [(1 : ℚ)] (Or.inl rfl)⟩

end HousePrices
